import Mathlib

/-!
# Verification of the ESP-NOW telemetry collection and analysis pipeline

Shallow embedding of the ingestion pipeline (`collect.py`) and the statistical
analysis engine (`analyze.py`) of the Offline-Wireless-AI-SOS repository.

Conventions of the embedding:
* Python dictionaries parsed from JSON lines become association lists
  (`Record`), built with last-duplicate-wins insertion exactly like `dict`.
* `json.loads` is modelled by `json_loads`, a recursive-descent parser over
  CPython's accepted grammar: objects, arrays, `true`/`false`/`null`, the
  non-finite constants `NaN`/`Infinity`/`-Infinity`, strings with the full
  escape set (including `\uXXXX`) and the strict control-character rule, and
  the full number grammar.  Integer numerals stay exact integers (Python
  `int`); numerals with a fraction or exponent become Python floats, modelled
  by the exact decimal rational the text denotes (CPython rounds it to the
  nearest binary float64; no claim observes a float value, only whether the
  parsed value is an object).  Surrogate-pair `\u` escapes, absent from the
  line protocol, are not combined.
* Raising a Python exception is modelled by `PyResult.raised`.
* Wall-clock time is modelled logically: each serial read returns the text it
  produced together with the (rational) time it consumed, bounded by the serial
  read timeout.  `time.time() - start_time` becomes the `elapsed` field of the
  loop state.
* pandas aggregates are modelled over `ℚ`; a NaN result (aggregate of an empty
  series) is the `StatV.nan` value, and a standard deviation is kept
  symbolically as `StatV.sqrtOf` of the sample variance.
-/

/-- JSON values, as produced by Python's `json.loads`: integer numerals give
Python ints (`num`); numerals with a fraction or exponent give Python floats
(`fnum`, carrying the exact decimal value the numeral denotes); the
out-of-grammar constants `NaN`, `Infinity` and `-Infinity`, accepted by
CPython by default, give the non-finite floats `nan` and `inf`. -/
inductive JVal where
  | null : JVal
  | bool : Bool → JVal
  | num : Int → JVal
  | fnum : ℚ → JVal
  | nan : JVal
  | inf : Bool → JVal
  | str : String → JVal
  | arr : List JVal → JVal
  | obj : List (String × JVal) → JVal

/-- A decoded record: a Python dict with string keys, insertion-ordered and
duplicate-free (duplicates are resolved last-wins at construction). -/
abbrev Record := List (String × JVal)

/-- Python `dict` item assignment: replace the value in place if the key is
present, otherwise append the new pair at the end. -/
def dictSet (d : Record) (k : String) (v : JVal) : Record :=
  if (d.lookup k).isSome then d.map (fun p => if p.1 = k then (k, v) else p)
  else d ++ [(k, v)]

/-- JSON whitespace: space, tab, line feed, carriage return. -/
def isJsonWs (c : Char) : Bool := c.toNat ∈ [32, 9, 10, 13]

/-- Skip JSON whitespace. -/
def skipWs : List Char → List Char
  | [] => []
  | c :: cs => if isJsonWs c then skipWs cs else c :: cs

/-- Value of a list of decimal digits (48 is the code of the digit zero). -/
def digitsToNat (ds : List Char) : Nat :=
  ds.foldl (fun acc d => 10 * acc + (d.toNat - 48)) 0

/-- JSON single-character string escapes (written by character code:
newline 10, tab 9, carriage return 13, backspace 8, form feed 12); `\u` is
handled separately in `parseStringRest`. -/
def unescChar (c : Char) : Option Char :=
  if c = '"' ∨ c = '\\' ∨ c = '/' then some c
  else if c = 'n' then some (Char.ofNat 10)
  else if c = 't' then some (Char.ofNat 9)
  else if c = 'r' then some (Char.ofNat 13)
  else if c = 'b' then some (Char.ofNat 8)
  else if c = 'f' then some (Char.ofNat 12)
  else none

/-- Value of one hexadecimal digit, by character code (digits 48-57,
lowercase 97-102, uppercase 65-70). -/
def hexDigitVal (c : Char) : Option Nat :=
  let n := c.toNat
  if 48 ≤ n ∧ n ≤ 57 then some (n - 48)
  else if 97 ≤ n ∧ n ≤ 102 then some (n - 87)
  else if 65 ≤ n ∧ n ≤ 70 then some (n - 55)
  else none

/-- Parse the remainder of a JSON string after the opening quote, returning
the string contents and the input after the closing quote.  Handles the
single-character escapes and `\uXXXX` (a lone-surrogate code point, invalid
as a Lean `Char` and absent from the protocol, degrades to code 0), and
enforces CPython's strict-mode rejection of unescaped control characters. -/
def parseStringRest : List Char → Option (List Char × List Char)
  | [] => none
  | c :: cs =>
    if c = '"' then some ([], cs)
    else if c = '\\' then
      match cs with
      | 'u' :: h₁ :: h₂ :: h₃ :: h₄ :: cs' =>
        match hexDigitVal h₁, hexDigitVal h₂, hexDigitVal h₃, hexDigitVal h₄,
            parseStringRest cs' with
        | some v₁, some v₂, some v₃, some v₄, some (r, rest) =>
          some (Char.ofNat (((v₁ * 16 + v₂) * 16 + v₃) * 16 + v₄) :: r, rest)
        | _, _, _, _, _ => none
      | e :: cs' =>
        match unescChar e, parseStringRest cs' with
        | some u, some (r, rest) => some (u :: r, rest)
        | _, _ => none
      | [] => none
    else if c.toNat < 32 then none
    else
      match parseStringRest cs with
      | some (r, rest) => some (c :: r, rest)
      | none => none

/-- Expect a literal suffix (used for `null`, `true`, `false`). -/
def expectLit : List Char → List Char → Option (List Char)
  | [], cs => some cs
  | l :: ls, c :: cs => if c = l then expectLit ls cs else none
  | _ :: _, [] => none

/-- Parse an unsigned JSON integer (JSON forbids leading zeros). -/
def parseNat (cs : List Char) : Option (Nat × List Char) :=
  let ds := cs.takeWhile Char.isDigit
  let rest := cs.dropWhile Char.isDigit
  match ds with
  | [] => none
  | '0' :: _ :: _ => some (0, cs.drop 1)
  | _ => some (digitsToNat ds, rest)

/-- Parse the optional `.digits` fraction of a number; the dot is consumed
only when at least one digit follows it (the behaviour of CPython's number
regular expression). -/
def parseFrac (cs : List Char) : Option (List Char) × List Char :=
  match cs with
  | '.' :: r =>
    match r.takeWhile Char.isDigit with
    | [] => (none, cs)
    | ds => (some ds, r.dropWhile Char.isDigit)
  | _ => (none, cs)

/-- Parse the optional exponent `e`/`E`, optional sign, digits; consumed only
when a complete exponent with at least one digit is present. -/
def parseExp (cs : List Char) : Option Int × List Char :=
  match cs with
  | e :: r =>
    if e = 'e' ∨ e = 'E' then
      match r with
      | s :: r₂ =>
        if s = '-' then
          match r₂.takeWhile Char.isDigit with
          | [] => (none, cs)
          | ds => (some (-(digitsToNat ds : Int)), r₂.dropWhile Char.isDigit)
        else if s = '+' then
          match r₂.takeWhile Char.isDigit with
          | [] => (none, cs)
          | ds => (some ((digitsToNat ds : Int)), r₂.dropWhile Char.isDigit)
        else
          match r.takeWhile Char.isDigit with
          | [] => (none, cs)
          | ds => (some ((digitsToNat ds : Int)), r.dropWhile Char.isDigit)
      | [] => (none, cs)
    else (none, cs)
  | [] => (none, cs)

/-- Parse a JSON number starting at a digit (any minus sign has been consumed
by the caller): a bare integer numeral stays a Python int; a fraction or
exponent makes it a Python float, modelled by the exact decimal rational the
numeral denotes. -/
def parseNumber (neg : Bool) (cs : List Char) : Option (JVal × List Char) :=
  match parseNat cs with
  | none => none
  | some (ip, rest₁) =>
    match parseFrac rest₁ with
    | (none, _) =>
      match parseExp rest₁ with
      | (none, _) => some (JVal.num (if neg then -(ip : Int) else (ip : Int)), rest₁)
      | (some ex, rest₃) =>
        some (JVal.fnum ((if neg then -(ip : ℚ) else (ip : ℚ)) * (10 : ℚ) ^ ex), rest₃)
    | (some ds, rest₂) =>
      let mant : ℚ := (ip : ℚ) + (digitsToNat ds : ℚ) / (10 : ℚ) ^ ds.length
      match parseExp rest₂ with
      | (none, _) => some (JVal.fnum (if neg then -mant else mant), rest₂)
      | (some ex, rest₃) =>
        some (JVal.fnum ((if neg then -mant else mant) * (10 : ℚ) ^ ex), rest₃)

/-- Build a Python dict from parsed object members: last duplicate wins,
insertion order preserved, exactly like `dict` construction in `json.loads`. -/
def objOfMembers (ms : List (String × JVal)) : Record :=
  ms.foldl (fun d kv => dictSet d kv.1 kv.2) []

mutual

/-- Recursive-descent JSON value parser (fuel-indexed; the top-level caller
supplies more fuel than the input length, which bounds the recursion). -/
def parseVal : Nat → List Char → Option (JVal × List Char)
  | 0, _ => none
  | _ + 1, [] => none
  | f + 1, c :: cs =>
    if c = 'n' then (expectLit ['u', 'l', 'l'] cs).map (fun r => (JVal.null, r))
    else if c = 't' then (expectLit ['r', 'u', 'e'] cs).map (fun r => (JVal.bool true, r))
    else if c = 'f' then (expectLit ['a', 'l', 's', 'e'] cs).map (fun r => (JVal.bool false, r))
    else if c = '"' then (parseStringRest cs).map (fun p => (JVal.str (String.mk p.1), p.2))
    else if c = 'N' then (expectLit ['a', 'N'] cs).map (fun r => (JVal.nan, r))
    else if c = 'I' then
      (expectLit ['n', 'f', 'i', 'n', 'i', 't', 'y'] cs).map (fun r => (JVal.inf false, r))
    else if c = '-' then
      match cs with
      | 'I' :: cs' =>
        (expectLit ['n', 'f', 'i', 'n', 'i', 't', 'y'] cs').map (fun r => (JVal.inf true, r))
      | _ => parseNumber true cs
    else if c.isDigit then parseNumber false (c :: cs)
    else if c = '\x7b' then
      match skipWs cs with
      | '\x7d' :: rest => some (JVal.obj [], rest)
      | cs' =>
        match parseMembers f cs' with
        | some (ms, rest) => some (JVal.obj (objOfMembers ms), rest)
        | none => none
    else if c = '[' then
      match skipWs cs with
      | ']' :: rest => some (JVal.arr [], rest)
      | cs' =>
        match parseElems f cs' with
        | some (vs, rest) => some (JVal.arr vs, rest)
        | none => none
    else none

/-- Parse one or more `"key": value` members followed by `,` or the closing
brace. -/
def parseMembers : Nat → List Char → Option (List (String × JVal) × List Char)
  | 0, _ => none
  | f + 1, cs =>
    match cs with
    | '"' :: cs₁ =>
      match parseStringRest cs₁ with
      | some (k, cs₂) =>
        match skipWs cs₂ with
        | ':' :: cs₃ =>
          match parseVal f (skipWs cs₃) with
          | some (v, cs₄) =>
            match skipWs cs₄ with
            | ',' :: cs₅ =>
              match parseMembers f (skipWs cs₅) with
              | some (ms, rest) => some ((String.mk k, v) :: ms, rest)
              | none => none
            | '\x7d' :: rest => some ([(String.mk k, v)], rest)
            | _ => none
          | none => none
        | _ => none
      | none => none
    | _ => none

/-- Parse one or more array elements followed by `,` or the closing bracket. -/
def parseElems : Nat → List Char → Option (List JVal × List Char)
  | 0, _ => none
  | f + 1, cs =>
    match parseVal f cs with
    | some (v, cs₁) =>
      match skipWs cs₁ with
      | ',' :: cs₂ =>
        match parseElems f (skipWs cs₂) with
        | some (vs, rest) => some (v :: vs, rest)
        | none => none
      | ']' :: rest => some ([v], rest)
      | _ => none
    | none => none

end

/-- Model of Python's `json.loads`: parse one value of the accepted grammar
(including floats, `NaN`/`Infinity`/`-Infinity` and the full escape set),
then require only whitespace to remain (else "Extra data"), exactly the
whole-string discipline of `json.loads`. -/
def json_loads (s : String) : Except String JVal :=
  match parseVal (s.length + 2) (skipWs s.toList) with
  | none => Except.error "Expecting value"
  | some (v, rest) =>
    if skipWs rest = [] then Except.ok v else Except.error "Extra data"

/-- Python's default whitespace set for `str.strip` (the `str.isspace`
characters): ASCII whitespace 9-13 and 32, the separator controls 28-31,
next line 133, no-break space 160, ogham space 5760, the Unicode
space-category range 8192-8202, line/paragraph separators 8232-8233, narrow
no-break space 8239, medium mathematical space 8287, ideographic space
12288. -/
def isPyWs (c : Char) : Bool :=
  let n := c.toNat
  decide ((9 ≤ n ∧ n ≤ 13) ∨ n = 32 ∨ (28 ≤ n ∧ n ≤ 31) ∨ n = 133 ∨ n = 160 ∨
    n = 5760 ∨ (8192 ≤ n ∧ n ≤ 8202) ∨ n = 8232 ∨ n = 8233 ∨ n = 8239 ∨
    n = 8287 ∨ n = 12288)

/-- Python `str.strip()`: remove leading and trailing whitespace. -/
def pyStrip (s : String) : String :=
  String.mk (((s.toList.dropWhile isPyWs).reverse.dropWhile isPyWs).reverse)

/-- Outcome of running a piece of Python code: a value, or a raised exception
carrying its message. -/
inductive PyResult (α : Type) where
  | ok : α → PyResult α
  | raised : String → PyResult α

/-- What one call of `parse_json_line` produces: the optional sample and the
diagnostics it printed. -/
structure Decoded where
  sample : Option Record
  diags : List String

/-- `ESP8266DataCollector.parse_json_line` (collect.py, lines 56-69): strip the
line; an empty line yields no sample and no diagnostic; a `json.JSONDecodeError`
is caught, printed and yields no sample; on success the local-clock timestamp
`now` is assigned into the parsed dict.  The item assignment
`data['timestamp'] = ...` is only defined on dicts: a line parsing to a
non-object JSON value raises an uncaught `TypeError` (only `JSONDecodeError` is
caught). -/
def parse_json_line (now : String) (line : String) : PyResult Decoded :=
  let l := pyStrip line
  if l = "" then .ok ⟨none, []⟩
  else
    match json_loads l with
    | .error e => .ok ⟨none, ["JSON parse error: " ++ e ++ " | Line: " ++ l]⟩
    | .ok (.obj kvs) => .ok ⟨some (dictSet kvs "timestamp" (.str now)), []⟩
    | .ok _ => .raised "TypeError: object does not support item assignment"

/-- A line decodes to a sample (independently of the clock value): it is
non-empty after stripping and parses to a JSON object. -/
def decodesSample (line : String) : Bool :=
  pyStrip line ≠ "" &&
    match json_loads (pyStrip line) with
    | .ok (.obj _) => true
    | _ => false

/-- A line makes the decoder raise (independently of the clock value): it
parses to a JSON value that is not an object. -/
def decodeRaisesB (line : String) : Bool :=
  pyStrip line ≠ "" &&
    match json_loads (pyStrip line) with
    | .ok (.obj _) => false
    | .ok _ => true
    | .error _ => false

/-- One `readline` from the line source: the decoded text it returned (empty on
a read timeout) and the wall-clock time the read consumed. -/
structure ReadEvent where
  line : String
  dt : ℚ

/-- The two optional termination limits of `collect_data`.  Python tests them
for truthiness (`if duration and ...`, `if max_samples and ...`), so a
configured value of `0` behaves like an unconfigured one. -/
structure CollectConfig where
  duration : Option ℚ
  max_samples : Option Int

/-- Why the collection loop stopped (`fuelOut` marks a run that used up the
step budget of the model without reaching a termination condition). -/
inductive StopReason where
  | durationLimit
  | sampleLimit
  | fuelOut
deriving DecidableEq

/-- The state of one `collect_data` run: the collector's `data_buffer`, the
per-run `sample_count`, elapsed time since `start_time`, the index of the next
read, and (ghost instrumentation) the elapsed times at which reads started. -/
structure LoopState where
  buffer : List Record
  sample_count : Nat
  elapsed : ℚ
  idx : Nat
  starts : List ℚ

/-- `if duration and (time.time() - start_time) >= duration` (line 97). -/
def durCheck (d : Option ℚ) (elapsed : ℚ) : Bool :=
  match d with
  | none => false
  | some D => D ≠ 0 && elapsed ≥ D

/-- `if max_samples and sample_count >= max_samples` (line 100). -/
def sampCheck (m : Option Int) (count : Nat) : Bool :=
  match m with
  | none => false
  | some M => M ≠ 0 && (count : Int) ≥ M

/-- The `while True` loop of `ESP8266DataCollector.collect_data` (collect.py,
lines 95-119), fuel-indexed.  Each iteration evaluates the two termination
predicates before the blocking read, then reads one line (advancing the
logical clock by the time the read consumed), skips empty reads, decodes
non-empty lines with `parse_json_line` (timestamping with the local clock
reading `clock i` of the read's index), and appends any resulting sample to
the buffer, incrementing `sample_count`.  An exception raised by the decoder
propagates (only `KeyboardInterrupt`/`UnicodeDecodeError` are caught in the
source, neither of which the decoder raises). -/
def collectLoop (cfg : CollectConfig) (reads : Nat → ReadEvent)
    (clock : Nat → String) : Nat → LoopState → PyResult (LoopState × StopReason)
  | 0, st => .ok (st, .fuelOut)
  | f + 1, st =>
    if durCheck cfg.duration st.elapsed then .ok (st, .durationLimit)
    else if sampCheck cfg.max_samples st.sample_count then .ok (st, .sampleLimit)
    else
      let ev := reads st.idx
      let st' : LoopState :=
        { st with elapsed := st.elapsed + ev.dt, idx := st.idx + 1,
                  starts := st.starts ++ [st.elapsed] }
      if ev.line = "" then collectLoop cfg reads clock f st'
      else
        match parse_json_line (clock st.idx) ev.line with
        | .raised e => .raised e
        | .ok ⟨none, _⟩ => collectLoop cfg reads clock f st'
        | .ok ⟨some rec, _⟩ =>
          collectLoop cfg reads clock f
            { st' with buffer := st'.buffer ++ [rec],
                       sample_count := st'.sample_count + 1 }

/-- The state at the top of `collect_data`: `sample_count = 0`,
`start_time = time.time()` (elapsed 0), and whatever `self.data_buffer`
already holds from earlier runs of the same collector. -/
def initState (buf : List Record) : LoopState :=
  { buffer := buf, sample_count := 0, elapsed := 0, idx := 0, starts := [] }

/-- `ESP8266DataCollector.collect_data` (collect.py, lines 71-127) on a
collector whose `data_buffer` currently holds `buf`: run the loop from a fresh
per-run state and return `self.data_buffer.copy()` (the final buffer) together
with the final state. -/
def collect_data (cfg : CollectConfig) (reads : Nat → ReadEvent)
    (clock : Nat → String) (fuel : Nat) (buf : List Record) :
    PyResult (List Record × LoopState × StopReason) :=
  match collectLoop cfg reads clock fuel (initState buf) with
  | .ok (st, r) => .ok (st.buffer, st, r)
  | .raised e => .raised e

/-- The in-memory DataFrame built by `to_dataframe` from the buffer: pandas
`DataFrame(list_of_dicts)` keeps one row per dict and one column per key
observed across the dicts. -/
structure WriteDF where
  rows : List Record

/-- Union (in order of first appearance) of the field names of the rows:
the column set of `DataFrame(list_of_dicts)`. -/
def colUnion (rows : List Record) : List String :=
  rows.foldl (fun acc r => r.foldl
    (fun acc' kv => if kv.1 ∈ acc' then acc' else acc' ++ [kv.1]) acc) []

/-- pandas `df.empty`: no rows or no columns. -/
def WriteDF.isEmptyDF (d : WriteDF) : Bool :=
  d.rows.isEmpty || (colUnion d.rows).isEmpty

/-- `ESP8266DataCollector.to_dataframe` (collect.py, lines 129-140): an empty
buffer yields `pd.DataFrame()` (empty); otherwise the rows become the frame
(the timestamp-to-datetime conversion does not change the row/column set). -/
def to_dataframe (buf : List Record) : WriteDF := ⟨buf⟩

/-- `ESP8266DataCollector.save_to_csv` (collect.py, lines 142-159) on a
collector whose buffer holds `buf`: returns whether the save succeeded and the
file written (`none` when no file was created).  An empty frame is reported
(`⚠️ No data to save`) and the function returns `False` before any directory
or file is touched. -/
def save_to_csv (buf : List Record) (filepath : String) :
    Bool × Option (String × WriteDF) :=
  let df := to_dataframe buf
  if df.isEmptyDF then (false, none)
  else (true, some (filepath, df))

/-- The value of one statistics entry, as pandas computes it over `ℚ` data:
`nan` for an aggregate of an empty series (or a sample standard deviation of
fewer than two points); `sqrtOf v` stands for the nonnegative square root of
`v` (standard deviations are irrational in general, so they are kept
symbolically exact). -/
inductive StatV where
  | nan : StatV
  | exact : ℚ → StatV
  | sqrtOf : ℚ → StatV
deriving DecidableEq

/-- Maximum of a list (pandas `Series.max` on nonempty data; the `0` default
is never used on claim-relevant paths, which guard on nonemptiness). -/
def colMax : List ℚ → ℚ
  | [] => 0
  | h :: t => t.foldl max h

/-- Minimum of a list. -/
def colMin : List ℚ → ℚ
  | [] => 0
  | h :: t => t.foldl min h

/-- pandas `Series.mean`: NaN on an empty series. -/
def meanS (l : List ℚ) : StatV :=
  match l with
  | [] => .nan
  | _ => .exact (l.sum / l.length)

/-- Sample variance with the pandas default `ddof=1` (only used for lists of
two or more points). -/
def sampleVar (l : List ℚ) : ℚ :=
  let m : ℚ := l.sum / l.length
  (l.map (fun x => (x - m) ^ 2)).sum / ((l.length : ℚ) - 1)

/-- pandas `Series.std` (`ddof=1`): NaN on fewer than two points, otherwise
the square root of the sample variance. -/
def stdS (l : List ℚ) : StatV :=
  if 2 ≤ l.length then .sqrtOf (sampleVar l) else .nan

/-- pandas `Series.min`: NaN on an empty series. -/
def minS (l : List ℚ) : StatV :=
  match l with
  | [] => .nan
  | _ => .exact (colMin l)

/-- pandas `Series.max`: NaN on an empty series. -/
def maxS (l : List ℚ) : StatV :=
  match l with
  | [] => .nan
  | _ => .exact (colMax l)

/-- pandas `Series.quantile q` with the default linear interpolation: NaN on an
empty series, otherwise `s[i] + frac * (s[i+1] - s[i])` at rank
`h = q * (n - 1)`, `i = ⌊h⌋`, on the ascending sort `s` of the data. -/
def quantileS (q : ℚ) (l : List ℚ) : StatV :=
  let s := l.insertionSort (· ≤ ·)
  if s.isEmpty then .nan
  else
    let n := s.length
    let h : ℚ := q * ((n : ℚ) - 1)
    let i : Nat := (⌊h⌋).toNat
    let lo := s.getD i 0
    let hi := s.getD (min (i + 1) (n - 1)) 0
    .exact (lo + (h - (i : ℚ)) * (hi - lo))

/-- pandas `Series.median` = `Series.quantile 0.5`. -/
def medianS (l : List ℚ) : StatV := quantileS (1 / 2) l

/-- Drop missing entries: `Series.dropna`. -/
def dropna (col : List (Option ℚ)) : List ℚ := col.filterMap id

/-- The `rssi_stats` dict literal of `basic_stats` (analyze.py, lines 68-74),
computed on the column after `dropna`. -/
def rssiBlock (l : List ℚ) : List (String × StatV) :=
  [("mean", meanS l), ("std", stdS l), ("min", minS l), ("max", maxS l),
   ("median", medianS l)]

/-- The `latency_stats` dict literal of `basic_stats` (analyze.py, lines
79-87), computed on the column after `dropna`. -/
def latBlock (l : List ℚ) : List (String × StatV) :=
  [("mean_us", meanS l), ("std_us", stdS l), ("min_us", minS l),
   ("max_us", maxS l), ("median_us", medianS l),
   ("p95_us", quantileS (95 / 100) l), ("p99_us", quantileS (99 / 100) l)]

/-- A loaded table: named columns of nullable numeric data (timestamps are
represented by their epoch value in seconds, which is all `basic_stats`
uses of them). -/
structure DataFrame where
  columns : List (String × List (Option ℚ))

/-- `name in df.columns`. -/
def hasCol (df : DataFrame) (name : String) : Bool :=
  (df.columns.lookup name).isSome

/-- `df[name]` (the empty column default is never used under a `hasCol`
guard). -/
def getCol (df : DataFrame) (name : String) : List (Option ℚ) :=
  (df.columns.lookup name).getD []

/-- The packet-loss computation of `basic_stats` (analyze.py, lines 90-94):
drop missing sequence values, sort ascending, `expected = max - min + 1` when
the series is nonempty else `0`, `actual = len`, and
`max(0, (expected - actual) / expected * 100)` guarded by `expected > 0`. -/
def packetLossOf (seqCol : List (Option ℚ)) : ℚ :=
  let s := (dropna seqCol).insertionSort (· ≤ ·)
  let expected : ℚ := if 0 < s.length then colMax s - colMin s + 1 else 0
  let actual : ℚ := s.length
  if 0 < expected then max 0 ((expected - actual) / expected * 100) else 0

/-- The `stats` dict of `basic_stats`.  `time_span` is `None` unless a
timestamp column exists (the code stores the formatted string
`f"⟨duration⟩ seconds"`; the model keeps the numeric value, NaN when the
column has no non-missing entry); `rssi_stats`/`latency_stats` default to the
empty dict; `packet_loss` defaults to `0`. -/
structure Stats where
  total_samples : Nat
  time_span : Option StatV
  rssi_stats : List (String × StatV)
  latency_stats : List (String × StatV)
  packet_loss : ℚ

/-- Number of rows of the table (`len(self.df)`). -/
def nRows (df : DataFrame) : Nat :=
  match df.columns with
  | [] => 0
  | c :: _ => c.2.length

/-- `ESP8266DataAnalyzer.basic_stats` (analyze.py, lines 47-96) on a loaded
table: each block is filled in only when its column exists; pandas `max`/`min`
on the timestamp column skip missing values. -/
def basic_stats (df : DataFrame) : Stats :=
  { total_samples := nRows df
    time_span :=
      if hasCol df "timestamp" then
        some (match dropna (getCol df "timestamp") with
              | [] => .nan
              | ts => .exact (colMax ts - colMin ts))
      else none
    rssi_stats :=
      if hasCol df "rssi" then rssiBlock (dropna (getCol df "rssi")) else []
    latency_stats :=
      if hasCol df "lat_us" then latBlock (dropna (getCol df "lat_us")) else []
    packet_loss :=
      if hasCol df "seq" then packetLossOf (getCol df "seq") else 0 }

/-- Modelled from the spec's words (§4.4): the documented packet-loss formula,
stated directly on the multiset of non-missing sequence values (no sorting):
`expected = max − min + 1`, `actual = count`,
`loss = max(0, (expected − actual) / expected × 100)`, and `0` whenever
`expected` is not positive (in particular on an empty column). -/
def specPacketLoss (seqCol : List (Option ℚ)) : ℚ :=
  match dropna seqCol with
  | [] => 0
  | s =>
    let expected : ℚ := colMax s - colMin s + 1
    if 0 < expected then max 0 ((expected - (s.length : ℚ)) / expected * 100)
    else 0

lemma le_foldl_max (t : List ℚ) : ∀ a : ℚ, a ≤ t.foldl max a := by
  induction t with
  | nil => intro a; exact le_refl a
  | cons h t ih => intro a; exact le_trans (le_max_left a h) (ih (max a h))

lemma mem_le_foldl_max (t : List ℚ) : ∀ (a x : ℚ), x ∈ t → x ≤ t.foldl max a := by
  induction t with
  | nil => intro a x hx; cases hx
  | cons h t ih =>
    intro a x hx
    rcases List.mem_cons.mp hx with rfl | hx'
    · exact le_trans (le_max_right a x) (le_foldl_max t (max a x))
    · exact ih (max a h) x hx'

lemma foldl_max_mem (t : List ℚ) : ∀ a : ℚ, t.foldl max a = a ∨ t.foldl max a ∈ t := by
  induction t with
  | nil => intro a; exact Or.inl rfl
  | cons h t ih =>
    intro a
    rcases ih (max a h) with heq | hmem
    · rw [List.foldl_cons, heq]
      rcases max_choice a h with h1 | h1
      · exact Or.inl h1
      · rw [h1]; exact Or.inr (List.mem_cons_self h t)
    · exact Or.inr (List.mem_cons_of_mem h hmem)

lemma colMax_mem : ∀ {l : List ℚ}, l ≠ [] → colMax l ∈ l := by
  intro l hl
  match l with
  | h :: t =>
    rcases foldl_max_mem t h with heq | hmem
    · rw [colMax, heq]; exact List.mem_cons_self h t
    · exact List.mem_cons_of_mem h hmem

lemma le_colMax : ∀ {l : List ℚ} {x : ℚ}, x ∈ l → x ≤ colMax l := by
  intro l x hx
  match l with
  | h :: t =>
    rcases List.mem_cons.mp hx with rfl | hx'
    · exact le_foldl_max t x
    · exact mem_le_foldl_max t h x hx'

lemma colMax_perm {l₁ l₂ : List ℚ} (p : l₁.Perm l₂) : colMax l₁ = colMax l₂ := by
  cases l₁ with
  | nil => rw [← p.symm.eq_nil]
  | cons h t =>
    have h₁ : (h :: t) ≠ [] := by intro hc; cases hc
    have h₂ : l₂ ≠ [] := by
      intro hc; subst hc; exact h₁ p.eq_nil
    exact le_antisymm (le_colMax (p.mem_iff.mp (colMax_mem h₁)))
      (le_colMax (p.mem_iff.mpr (colMax_mem h₂)))

lemma foldl_min_le (t : List ℚ) : ∀ a : ℚ, t.foldl min a ≤ a := by
  induction t with
  | nil => intro a; exact le_refl a
  | cons h t ih => intro a; exact le_trans (ih (min a h)) (min_le_left a h)

lemma foldl_min_le_mem (t : List ℚ) : ∀ (a x : ℚ), x ∈ t → t.foldl min a ≤ x := by
  induction t with
  | nil => intro a x hx; cases hx
  | cons h t ih =>
    intro a x hx
    rcases List.mem_cons.mp hx with rfl | hx'
    · exact le_trans (foldl_min_le t (min a x)) (min_le_right a x)
    · exact ih (min a h) x hx'

lemma foldl_min_mem (t : List ℚ) : ∀ a : ℚ, t.foldl min a = a ∨ t.foldl min a ∈ t := by
  induction t with
  | nil => intro a; exact Or.inl rfl
  | cons h t ih =>
    intro a
    rcases ih (min a h) with heq | hmem
    · rw [List.foldl_cons, heq]
      rcases min_choice a h with h1 | h1
      · exact Or.inl h1
      · rw [h1]; exact Or.inr (List.mem_cons_self h t)
    · exact Or.inr (List.mem_cons_of_mem h hmem)

lemma colMin_mem : ∀ {l : List ℚ}, l ≠ [] → colMin l ∈ l := by
  intro l hl
  match l with
  | h :: t =>
    rcases foldl_min_mem t h with heq | hmem
    · rw [colMin, heq]; exact List.mem_cons_self h t
    · exact List.mem_cons_of_mem h hmem

lemma colMin_le : ∀ {l : List ℚ} {x : ℚ}, x ∈ l → colMin l ≤ x := by
  intro l x hx
  match l with
  | h :: t =>
    rcases List.mem_cons.mp hx with rfl | hx'
    · exact foldl_min_le t x
    · exact foldl_min_le_mem t h x hx'

lemma colMin_perm {l₁ l₂ : List ℚ} (p : l₁.Perm l₂) : colMin l₁ = colMin l₂ := by
  cases l₁ with
  | nil => rw [← p.symm.eq_nil]
  | cons h t =>
    have h₁ : (h :: t) ≠ [] := by intro hc; cases hc
    have h₂ : l₂ ≠ [] := by
      intro hc; subst hc; exact h₁ p.eq_nil
    exact le_antisymm (colMin_le (p.mem_iff.mpr (colMin_mem h₂)))
      (colMin_le (p.mem_iff.mp (colMin_mem h₁)))

lemma packetLoss_eq_specPacketLoss (xs : List (Option ℚ)) :
    packetLossOf xs = specPacketLoss xs := by
  unfold packetLossOf specPacketLoss
  cases hd : dropna xs with
  | nil => simp
  | cons h t =>
    have hperm := List.perm_insertionSort (fun x1 x2 => x1 ≤ x2) (h :: t)
    have hmax := colMax_perm hperm
    have hmin := colMin_perm hperm
    simp only [hmax, hmin, hperm.length_eq]
    simp

/-- C1: For every table with a `seq` column, the packet-loss estimate equals
the documented formula (`specPacketLoss`, written from the spec's words over
the un-sorted multiset of non-missing sequence values): drop missing values,
`expected = max − min + 1`, `actual = count`,
`loss = max(0, (expected − actual) / expected × 100)`, `0` when `expected` is
not positive (empty column); sequences `[0,1,2,4,5]` give `50/3` (≈ 16.67%)
and the single sequence `[3]` gives `0` with no division by zero. -/
theorem packet_loss_matches_documented_formula :
    (∀ df : DataFrame, hasCol df "seq" = true →
        (basic_stats df).packet_loss = specPacketLoss (getCol df "seq")) ∧
    (basic_stats ⟨[("seq", [some 0, some 1, some 2, some 4, some 5])]⟩).packet_loss = 50 / 3 ∧
    (basic_stats ⟨[("seq", [some 3])]⟩).packet_loss = 0 := by
  refine ⟨fun df h => ?_, by with_unfolding_all rfl, by with_unfolding_all rfl⟩
  simp [basic_stats, h, packetLoss_eq_specPacketLoss]

/-- Witness for C1: the general formula theorem applied at the concrete
single-sequence table. -/
theorem packet_loss_matches_documented_formula_witness :
    (basic_stats ⟨[("seq", [some 3])]⟩).packet_loss =
      specPacketLoss (getCol ⟨[("seq", [some 3])]⟩ "seq") :=
  packet_loss_matches_documented_formula.1 ⟨[("seq", [some 3])]⟩ rfl

/-- C3 (amended): for every loaded table with an `rssi` (or `lat_us`) column
whose entries are all missing, the stats engine produces a stats block whose
entries are all present but NaN (pandas aggregates of the empty series after
`dropna`), and does not raise. -/
theorem all_missing_column_yields_all_nan_stats :
    ∀ df : DataFrame,
      (hasCol df "rssi" = true → dropna (getCol df "rssi") = [] →
        (basic_stats df).rssi_stats =
          [("mean", StatV.nan), ("std", StatV.nan), ("min", StatV.nan),
           ("max", StatV.nan), ("median", StatV.nan)]) ∧
      (hasCol df "lat_us" = true → dropna (getCol df "lat_us") = [] →
        (basic_stats df).latency_stats =
          [("mean_us", StatV.nan), ("std_us", StatV.nan), ("min_us", StatV.nan),
           ("max_us", StatV.nan), ("median_us", StatV.nan),
           ("p95_us", StatV.nan), ("p99_us", StatV.nan)]) := by
  intro df
  constructor
  · intro h hcol
    simp [basic_stats, h, hcol, rssiBlock, meanS, stdS, minS, maxS, medianS, quantileS]
  · intro h hcol
    simp [basic_stats, h, hcol, latBlock, meanS, stdS, minS, maxS, medianS, quantileS]

/-- Witness for C3: the theorem applied at a concrete one-row table whose
`rssi` and `lat_us` columns are entirely missing. -/
theorem all_missing_column_yields_all_nan_stats_witness :
    (basic_stats ⟨[("rssi", [none]), ("lat_us", [none])]⟩).rssi_stats =
      [("mean", StatV.nan), ("std", StatV.nan), ("min", StatV.nan),
       ("max", StatV.nan), ("median", StatV.nan)] :=
  (all_missing_column_yields_all_nan_stats ⟨[("rssi", [none]), ("lat_us", [none])]⟩).1 rfl rfl

/-- Counterexample to C3 as stated: on a table whose `rssi` column exists but
is entirely missing, the stats block is NOT empty — it still carries the
`mean`/`std`/`min`/`max`/`median` entries (each NaN). -/
theorem all_missing_rssi_stats_block_not_empty :
    (basic_stats ⟨[("rssi", [none])]⟩).rssi_stats ≠ [] ∧
    ((basic_stats ⟨[("rssi", [none])]⟩).rssi_stats.lookup "mean" = some StatV.nan) := by
  have h : (basic_stats ⟨[("rssi", [none])]⟩).rssi_stats =
      [("mean", StatV.nan), ("std", StatV.nan), ("min", StatV.nan),
       ("max", StatV.nan), ("median", StatV.nan)] := by with_unfolding_all rfl
  rw [h]
  exact ⟨List.cons_ne_nil _ _, rfl⟩

/-- C8: each sub-structure of the summary report is present only when the
corresponding column existed in the table, and absent otherwise.  In the code
the `stats` dict always carries all keys, with the documented fallback values
marking absence (`None` for `time_span`, the empty dict for
`rssi_stats`/`latency_stats`, `0` for `packet_loss`); "present" is therefore
formalised as "differs from its fallback value". -/
theorem summary_blocks_present_only_when_column_exists :
    ∀ df : DataFrame,
      ((basic_stats df).time_span.isSome = true → hasCol df "timestamp" = true) ∧
      (hasCol df "timestamp" = false → (basic_stats df).time_span = none) ∧
      ((basic_stats df).rssi_stats ≠ [] → hasCol df "rssi" = true) ∧
      (hasCol df "rssi" = false → (basic_stats df).rssi_stats = []) ∧
      ((basic_stats df).latency_stats ≠ [] → hasCol df "lat_us" = true) ∧
      (hasCol df "lat_us" = false → (basic_stats df).latency_stats = []) ∧
      ((basic_stats df).packet_loss ≠ 0 → hasCol df "seq" = true) ∧
      (hasCol df "seq" = false → (basic_stats df).packet_loss = 0) := by
  intro df
  have hts : hasCol df "timestamp" = false → (basic_stats df).time_span = none :=
    fun h => by simp [basic_stats, h]
  have hrs : hasCol df "rssi" = false → (basic_stats df).rssi_stats = [] :=
    fun h => by simp [basic_stats, h]
  have hls : hasCol df "lat_us" = false → (basic_stats df).latency_stats = [] :=
    fun h => by simp [basic_stats, h]
  have hsq : hasCol df "seq" = false → (basic_stats df).packet_loss = 0 :=
    fun h => by simp [basic_stats, h]
  refine ⟨?_, hts, ?_, hrs, ?_, hls, ?_, hsq⟩
  · intro hp
    cases hc : hasCol df "timestamp" with
    | true => rfl
    | false => rw [hts hc] at hp; cases hp
  · intro hp
    cases hc : hasCol df "rssi" with
    | true => rfl
    | false => exact absurd (hrs hc) hp
  · intro hp
    cases hc : hasCol df "lat_us" with
    | true => rfl
    | false => exact absurd (hls hc) hp
  · intro hp
    cases hc : hasCol df "seq" with
    | true => rfl
    | false => exact absurd (hsq hc) hp

/-- Witness for C8: the theorem applied at the concrete table with no columns
at all: every sub-structure takes its absence value. -/
theorem summary_blocks_present_only_when_column_exists_witness :
    (basic_stats ⟨[]⟩).time_span = none ∧
    (basic_stats ⟨[]⟩).rssi_stats = [] ∧
    (basic_stats ⟨[]⟩).latency_stats = [] ∧
    (basic_stats ⟨[]⟩).packet_loss = 0 :=
  ⟨(summary_blocks_present_only_when_column_exists ⟨[]⟩).2.1 rfl,
   (summary_blocks_present_only_when_column_exists ⟨[]⟩).2.2.2.1 rfl,
   (summary_blocks_present_only_when_column_exists ⟨[]⟩).2.2.2.2.2.1 rfl,
   (summary_blocks_present_only_when_column_exists ⟨[]⟩).2.2.2.2.2.2.2 rfl⟩

/-- C4: writing an empty sequence of samples returns a failure result (the
modelled `save_to_csv` is total, mirroring the code's catch-all handler: it
reports and returns `False` rather than raising) and creates no file at any
target path. -/
theorem save_empty_buffer_reports_failure_and_writes_no_file :
    ∀ path : String, save_to_csv [] path = (false, none) :=
  fun _ => rfl

lemma lookup_map_replace (k : String) (v : JVal) :
    ∀ d : Record, (d.lookup k).isSome = true →
      ((d.map (fun p => if p.1 = k then (k, v) else p)).lookup k) = some v := by
  intro d
  induction d with
  | nil => intro h; simp [List.lookup] at h
  | cons p d ih =>
    intro h
    by_cases hk : p.1 = k
    · rw [List.map_cons, if_pos hk]
      simp [List.lookup]
    · have hkk : (k == p.1) = false := by
        simp only [beq_eq_false_iff_ne, ne_eq]
        exact fun e => hk e.symm
      rw [List.map_cons, if_neg hk]
      simp only [List.lookup, hkk]
      apply ih
      simpa [List.lookup, hkk] using h

lemma lookup_append_single (k : String) (v : JVal) :
    ∀ d : Record, (d.lookup k).isSome = false →
      ((d ++ [(k, v)]).lookup k) = some v := by
  intro d
  induction d with
  | nil => intro _; simp [List.lookup]
  | cons p d ih =>
    intro h
    by_cases hk : (k == p.1) = true
    · simp [List.lookup, hk] at h
    · have hkk : (k == p.1) = false := Bool.eq_false_iff.mpr hk
      simp only [List.cons_append, List.lookup, hkk]
      apply ih
      simpa [List.lookup, hkk] using h

lemma lookup_dictSet (d : Record) (k : String) (v : JVal) :
    (dictSet d k v).lookup k = some v := by
  unfold dictSet
  by_cases h : (d.lookup k).isSome = true
  · rw [if_pos h]; exact lookup_map_replace k v d h
  · rw [if_neg h]
    exact lookup_append_single k v d (Bool.eq_false_iff.mpr h)

/-- C7 (amended): every sample the decoder produces carries a `timestamp`
field holding the local-clock reading of the decode, regardless of any
`timestamp` (or other time) field the node supplied — the assignment
`data['timestamp'] = datetime.now().isoformat()` overwrites it.  (The second
half of the original claim fails: a sample need not be an error or a
measurement sample; see the counterexample.) -/
theorem decoded_samples_timestamped_from_local_clock :
    ∀ (now line : String) (rec : Record) (diags : List String),
      parse_json_line now line = .ok ⟨some rec, diags⟩ →
      rec.lookup "timestamp" = some (JVal.str now) := by
  intro now line rec diags h
  unfold parse_json_line at h
  by_cases he : pyStrip line = ""
  · simp [he] at h
  · simp only [he, if_neg, ite_false] at h
    cases hj : json_loads (pyStrip line) with
    | error e => rw [hj] at h; simp at h
    | ok v =>
      rw [hj] at h
      cases v with
      | obj kvs =>
        simp only [PyResult.ok.injEq, Decoded.mk.injEq, Option.some.injEq] at h
        rw [← h.1]
        exact lookup_dictSet kvs "timestamp" (JVal.str now)
      | null => simp at h
      | bool b => simp at h
      | num n => simp at h
      | fnum q => simp at h
      | nan => simp at h
      | inf b => simp at h
      | str s => simp at h
      | arr xs => simp at h

/-- Witness for C7: the theorem applied to a concrete line in which the node
itself supplied a `timestamp` field; the decoded sample carries the local
clock value `"LOCAL"`, not the node's. -/
theorem decoded_samples_timestamped_from_local_clock_witness :
    ([("seq", JVal.num 1), ("timestamp", JVal.str "LOCAL")] : Record).lookup "timestamp" =
      some (JVal.str "LOCAL") :=
  decoded_samples_timestamped_from_local_clock "LOCAL"
    "\x7b\"seq\": 1, \"timestamp\": \"node\"\x7d"
    [("seq", JVal.num 1), ("timestamp", JVal.str "LOCAL")] [] rfl

/-- Counterexample to C7 as stated: the line `{}` decodes to a Sample that has
a timestamp but is neither an error sample (no `error` field) nor a
measurement sample (none of `seq`/`rssi`/`lat_us`). -/
theorem empty_object_decodes_to_sample_with_only_timestamp :
    parse_json_line "T0" "\x7b\x7d" =
      .ok ⟨some [("timestamp", JVal.str "T0")], []⟩ ∧
    ([("timestamp", JVal.str "T0")] : Record).lookup "error" = none ∧
    ([("timestamp", JVal.str "T0")] : Record).lookup "seq" = none ∧
    ([("timestamp", JVal.str "T0")] : Record).lookup "rssi" = none ∧
    ([("timestamp", JVal.str "T0")] : Record).lookup "lat_us" = none :=
  ⟨rfl, rfl, rfl, rfl, rfl⟩

lemma parse_json_line_of_empty (now line : String) (h : pyStrip line = "") :
    parse_json_line now line = .ok ⟨none, []⟩ := by
  simp [parse_json_line, h]

lemma parse_json_line_of_error (now line e : String) (hne : pyStrip line ≠ "")
    (h : json_loads (pyStrip line) = .error e) :
    parse_json_line now line =
      .ok ⟨none, ["JSON parse error: " ++ e ++ " | Line: " ++ pyStrip line]⟩ := by
  simp [parse_json_line, hne, h]

lemma parse_json_line_total (now line : String) (h : decodeRaisesB line = false) :
    ∃ d : Decoded, parse_json_line now line = .ok d := by
  by_cases he : pyStrip line = ""
  · exact ⟨⟨none, []⟩, parse_json_line_of_empty now line he⟩
  · cases hj : json_loads (pyStrip line) with
    | error e => exact ⟨_, parse_json_line_of_error now line e he hj⟩
    | ok v =>
      unfold decodeRaisesB at h
      rw [Bool.and_eq_false_iff] at h
      cases h with
      | inl h1 => exact absurd (by simpa using h1) (by simp [he])
      | inr h2 =>
        rw [hj] at h2
        cases v with
        | obj kvs =>
          exact ⟨⟨some (dictSet kvs "timestamp" (JVal.str now)), []⟩,
            by simp [parse_json_line, he, hj]⟩
        | null => simp at h2
        | bool b => simp at h2
        | num n => simp at h2
        | fnum q => simp at h2
        | nan => simp at h2
        | inf b => simp at h2
        | str s => simp at h2
        | arr xs => simp at h2

lemma parse_json_line_none_of_sampleless (line : String)
    (h1 : decodesSample line = false) (h2 : decodeRaisesB line = false) (now : String) :
    ∃ ds, parse_json_line now line = .ok ⟨none, ds⟩ := by
  by_cases he : pyStrip line = ""
  · exact ⟨[], parse_json_line_of_empty now line he⟩
  · cases hj : json_loads (pyStrip line) with
    | error e => exact ⟨_, parse_json_line_of_error now line e he hj⟩
    | ok v =>
      cases v with
      | obj kvs =>
        exact absurd h1 (by simp [decodesSample, he, hj])
      | null => exact absurd h2 (by simp [decodeRaisesB, he, hj])
      | bool b => exact absurd h2 (by simp [decodeRaisesB, he, hj])
      | num n => exact absurd h2 (by simp [decodeRaisesB, he, hj])
      | fnum q => exact absurd h2 (by simp [decodeRaisesB, he, hj])
      | nan => exact absurd h2 (by simp [decodeRaisesB, he, hj])
      | inf b => exact absurd h2 (by simp [decodeRaisesB, he, hj])
      | str s => exact absurd h2 (by simp [decodeRaisesB, he, hj])
      | arr xs => exact absurd h2 (by simp [decodeRaisesB, he, hj])

lemma sampleless_source_no_growth (cfg : CollectConfig) (reads : Nat → ReadEvent)
    (clock : Nat → String)
    (h : ∀ i, decodesSample (reads i).line = false ∧ decodeRaisesB (reads i).line = false) :
    ∀ f st st' r, collectLoop cfg reads clock f st = .ok (st', r) →
      st'.sample_count = st.sample_count ∧ st'.buffer = st.buffer := by
  intro f
  induction f with
  | zero =>
    intro st st' r hr
    unfold collectLoop at hr
    simp only [PyResult.ok.injEq, Prod.mk.injEq] at hr
    rw [← hr.1]
    exact ⟨rfl, rfl⟩
  | succ f ih =>
    intro st st' r hr
    unfold collectLoop at hr
    by_cases hd : durCheck cfg.duration st.elapsed
    · simp only [hd, if_true, PyResult.ok.injEq, Prod.mk.injEq] at hr
      rw [← hr.1]; exact ⟨rfl, rfl⟩
    · by_cases hs : sampCheck cfg.max_samples st.sample_count
      · simp only [hd, hs, if_false, if_true, Bool.false_eq_true,
          PyResult.ok.injEq, Prod.mk.injEq] at hr
        rw [← hr.1]; exact ⟨rfl, rfl⟩
      · simp only [hd, hs, Bool.false_eq_true, if_false] at hr
        by_cases hl : (reads st.idx).line = ""
        · rw [if_pos hl] at hr
          simpa using ih _ _ _ hr
        · rw [if_neg hl] at hr
          obtain ⟨ds, hp⟩ := parse_json_line_none_of_sampleless (reads st.idx).line
            (h st.idx).1 (h st.idx).2 (clock st.idx)
          rw [hp] at hr
          dsimp only at hr
          simpa using ih _ _ _ hr

/-- C5 (amended): the decoder is total on every raw text line except those
that parse to a non-object JSON value (such a line raises an uncaught
`TypeError`; see the counterexample): a line that is empty after stripping
yields no sample and no diagnostic; an unparseable line yields no sample
together with one logged diagnostic; and a source none of whose lines decode
to a sample leaves the session's `sample_count` (and buffer) unchanged. -/
theorem decoder_total_except_nonobject_json_lines :
    (∀ now line : String, decodeRaisesB line = false →
      ∃ d : Decoded, parse_json_line now line = .ok d) ∧
    (∀ now line : String, pyStrip line = "" →
      parse_json_line now line = .ok ⟨none, []⟩) ∧
    (∀ now line e : String, pyStrip line ≠ "" → json_loads (pyStrip line) = .error e →
      parse_json_line now line =
        .ok ⟨none, ["JSON parse error: " ++ e ++ " | Line: " ++ pyStrip line]⟩) ∧
    (∀ (cfg : CollectConfig) (reads : Nat → ReadEvent) (clock : Nat → String),
      (∀ i, decodesSample (reads i).line = false ∧ decodeRaisesB (reads i).line = false) →
      ∀ f st st' r, collectLoop cfg reads clock f st = .ok (st', r) →
        st'.sample_count = st.sample_count ∧ st'.buffer = st.buffer) :=
  ⟨parse_json_line_total, parse_json_line_of_empty,
   fun now line e hne h => parse_json_line_of_error now line e hne h,
   sampleless_source_no_growth⟩

/-- Witness for C5: the theorem applied to the concrete whitespace line, the
spec's truncated line, and a two-read run over the truncated line. -/
theorem decoder_total_except_nonobject_json_lines_witness :
    parse_json_line "T0" "  " = .ok ⟨none, []⟩ ∧
    parse_json_line "T0" "\x7b\"seq\": \x7d" =
      .ok ⟨none, ["JSON parse error: Expecting value | Line: \x7b\"seq\": \x7d"]⟩ ∧
    ((⟨[], 0, 2, 2, [0, 1]⟩ : LoopState).sample_count = (initState []).sample_count ∧
      (⟨[], 0, 2, 2, [0, 1]⟩ : LoopState).buffer = (initState []).buffer) := by
  refine ⟨decoder_total_except_nonobject_json_lines.2.1 "T0" "  " rfl, ?_, ?_⟩
  · have h := decoder_total_except_nonobject_json_lines.2.2.1 "T0" "\x7b\"seq\": \x7d"
      "Expecting value" (by decide) rfl
    simpa using h
  · exact decoder_total_except_nonobject_json_lines.2.2.2
      ⟨none, none⟩ (fun _ => ⟨"\x7b\"seq\": \x7d", 1⟩) (fun _ => "T")
      (fun i => ⟨rfl, rfl⟩) 2 (initState []) ⟨[], 0, 2, 2, [0, 1]⟩ .fuelOut
      (by with_unfolding_all rfl)

/-- Counterexample to C5 as stated: the decoder is not total on every raw
line — the line `42` parses as a JSON number, and the timestamp item
assignment then raises an uncaught `TypeError` (only `json.JSONDecodeError`
is caught). -/
theorem json_scalar_line_raises_uncaught_type_error :
    parse_json_line "T0" "42" =
      .raised "TypeError: object does not support item assignment" := rfl

lemma sampCheck_zero (c : Nat) : sampCheck (some 0) c = false := by simp [sampCheck]

lemma durCheck_zero (e : ℚ) : durCheck (some 0) e = false := by simp [durCheck]

lemma collectLoop_samp_zero (d : Option ℚ) (reads : Nat → ReadEvent) (clock : Nat → String) :
    ∀ f st, collectLoop ⟨d, some 0⟩ reads clock f st =
      collectLoop ⟨d, none⟩ reads clock f st := by
  intro f
  induction f with
  | zero => intro st; rfl
  | succ f ih =>
    intro st
    unfold collectLoop
    simp only [sampCheck_zero]
    by_cases hd : durCheck d st.elapsed
    · simp [hd]
    · simp only [hd, Bool.false_eq_true, if_false, sampCheck]
      by_cases hl : (reads st.idx).line = ""
      · simp only [hl, if_true]
        exact ih _
      · simp only [hl, if_neg, ite_false]
        cases hp : parse_json_line (clock st.idx) (reads st.idx).line with
        | raised e => rfl
        | ok dcd =>
          cases dcd with
          | mk s ds =>
            cases s with
            | none => exact ih _
            | some rec => exact ih _

lemma collectLoop_dur_zero (m : Option Int) (reads : Nat → ReadEvent) (clock : Nat → String) :
    ∀ f st, collectLoop ⟨some 0, m⟩ reads clock f st =
      collectLoop ⟨none, m⟩ reads clock f st := by
  intro f
  induction f with
  | zero => intro st; rfl
  | succ f ih =>
    intro st
    unfold collectLoop
    simp only [durCheck_zero]
    by_cases hs : sampCheck m st.sample_count
    · simp [hs, durCheck]
    · simp only [hs, Bool.false_eq_true, if_false, durCheck]
      by_cases hl : (reads st.idx).line = ""
      · simp only [hl, if_true]
        exact ih _
      · simp only [hl, if_neg, ite_false]
        cases hp : parse_json_line (clock st.idx) (reads st.idx).line with
        | raised e => rfl
        | ok dcd =>
          cases dcd with
          | mk s ds =>
            cases s with
            | none => exact ih _
            | some rec => exact ih _

lemma collectLoop_samp_zero_no_sample_limit (d : Option ℚ)
    (reads : Nat → ReadEvent) (clock : Nat → String) :
    ∀ f st st' r, collectLoop ⟨d, some 0⟩ reads clock f st = .ok (st', r) →
      r ≠ .sampleLimit := by
  intro f
  induction f with
  | zero =>
    intro st st' r hr
    unfold collectLoop at hr
    simp only [PyResult.ok.injEq, Prod.mk.injEq] at hr
    rw [← hr.2]
    intro hc; cases hc
  | succ f ih =>
    intro st st' r hr
    unfold collectLoop at hr
    simp only [sampCheck_zero, Bool.false_eq_true, if_false] at hr
    by_cases hd : durCheck d st.elapsed
    · simp only [hd, if_true, PyResult.ok.injEq, Prod.mk.injEq] at hr
      rw [← hr.2]
      intro hc; cases hc
    · simp only [hd, Bool.false_eq_true, if_false] at hr
      by_cases hl : (reads st.idx).line = ""
      · rw [if_pos hl] at hr
        exact ih _ _ _ hr
      · rw [if_neg hl] at hr
        cases hp : parse_json_line (clock st.idx) (reads st.idx).line with
        | raised e => rw [hp] at hr; cases hr
        | ok dcd =>
          rw [hp] at hr
          cases dcd with
          | mk s ds =>
            cases s with
            | none => dsimp only at hr; exact ih _ _ _ hr
            | some rec => dsimp only at hr; exact ih _ _ _ hr

/-- C9: a configured limit of zero is treated exactly like an unconfigured
limit, because the code tests the limits for truthiness: a run configured with
`maxSamples = 0` (resp. `maxDuration = 0`) equals, on every source, clock,
step budget and state, the run with that limit unconfigured, and in
particular such a run never stops with the sample-limit reason — it does not
terminate after zero samples. -/
theorem zero_limits_treated_as_unconfigured :
    (∀ (d : Option ℚ) (reads : Nat → ReadEvent) (clock : Nat → String) f st,
      collectLoop ⟨d, some 0⟩ reads clock f st = collectLoop ⟨d, none⟩ reads clock f st) ∧
    (∀ (m : Option Int) (reads : Nat → ReadEvent) (clock : Nat → String) f st,
      collectLoop ⟨some 0, m⟩ reads clock f st = collectLoop ⟨none, m⟩ reads clock f st) ∧
    (∀ (d : Option ℚ) (reads : Nat → ReadEvent) (clock : Nat → String) f st st' r,
      collectLoop ⟨d, some 0⟩ reads clock f st = .ok (st', r) → r ≠ .sampleLimit) :=
  ⟨fun d reads clock f st => collectLoop_samp_zero d reads clock f st,
   fun m reads clock f st => collectLoop_dur_zero m reads clock f st,
   fun d reads clock f st st' r h => collectLoop_samp_zero_no_sample_limit d reads clock f st st' r h⟩

/-- Witness for C9: applied to a concrete three-step run with `maxSamples = 0`
over an always-ready source, which ends by fuel exhaustion with three samples
collected, not by the sample limit. -/
theorem zero_limits_treated_as_unconfigured_witness :
    StopReason.fuelOut ≠ StopReason.sampleLimit :=
  zero_limits_treated_as_unconfigured.2.2 none (fun _ => ⟨"\x7b\"seq\": 1\x7d", 1⟩)
    (fun _ => "T") 3 (initState [])
    ⟨[[("seq", JVal.num 1), ("timestamp", JVal.str "T")],
      [("seq", JVal.num 1), ("timestamp", JVal.str "T")],
      [("seq", JVal.num 1), ("timestamp", JVal.str "T")]], 3, 3, 3, [0, 1, 2]⟩
    .fuelOut (by with_unfolding_all rfl)

/-- Lift a run result by prepending `b` to the buffer of its final state. -/
def withBuf (b : List Record) :
    PyResult (LoopState × StopReason) → PyResult (LoopState × StopReason)
  | .ok (st, r) => .ok ({ st with buffer := b ++ st.buffer }, r)
  | .raised e => .raised e

lemma collectLoop_buffer_prepend (cfg : CollectConfig) (reads : Nat → ReadEvent)
    (clock : Nat → String) (b : List Record) :
    ∀ f buf c e i ss,
      collectLoop cfg reads clock f ⟨b ++ buf, c, e, i, ss⟩ =
        withBuf b (collectLoop cfg reads clock f ⟨buf, c, e, i, ss⟩) := by
  intro f
  induction f with
  | zero => intro buf c e i ss; rfl
  | succ f ih =>
    intro buf c e i ss
    unfold collectLoop
    by_cases hd : durCheck cfg.duration e
    · simp [hd, withBuf]
    · by_cases hs : sampCheck cfg.max_samples c
      · simp [hd, hs, withBuf]
      · simp only [hd, hs, Bool.false_eq_true, if_false]
        by_cases hl : (reads i).line = ""
        · simp only [hl, if_true]
          exact ih _ _ _ _ _
        · simp only [hl, if_neg, ite_false]
          cases hp : parse_json_line (clock i) (reads i).line with
          | raised er => simp [withBuf]
          | ok dcd =>
            cases dcd with
            | mk s ds =>
              cases s with
              | none => exact ih _ _ _ _ _
              | some rec =>
                dsimp only
                rw [List.append_assoc b buf [rec]]
                exact ih _ _ _ _ _

/-- C10: the sample buffer is owned by the collector and never cleared by a
run: a `collect_data` call on a collector whose buffer already holds `buf`
produces exactly the run it would produce on an empty buffer, with `buf`
prepended to the final buffer and to the returned snapshot — so a second call
returns the earlier samples as well, while the per-call `sample_count`,
elapsed time and stop reason are unchanged by the pre-existing buffer; and
the returned value is always a snapshot of the entire final buffer. -/
theorem collector_buffer_is_append_only_across_runs :
    (∀ (cfg : CollectConfig) (reads : Nat → ReadEvent) (clock : Nat → String) f buf,
      collect_data cfg reads clock f buf =
        match collect_data cfg reads clock f [] with
        | .ok (ret, st, r) => .ok (buf ++ ret, { st with buffer := buf ++ st.buffer }, r)
        | .raised e => .raised e) ∧
    (∀ (cfg : CollectConfig) (reads : Nat → ReadEvent) (clock : Nat → String) f buf ret st r,
      collect_data cfg reads clock f buf = .ok (ret, st, r) → ret = st.buffer) := by
  constructor
  · intro cfg reads clock f buf
    unfold collect_data initState
    have h := collectLoop_buffer_prepend cfg reads clock buf f [] 0 0 0 []
    rw [List.append_nil] at h
    rw [h]
    cases collectLoop cfg reads clock f (⟨[], 0, 0, 0, []⟩ : LoopState) with
    | raised e => rfl
    | ok p => cases p with | mk st r => rfl
  · intro cfg reads clock f buf ret st r h
    unfold collect_data at h
    cases hc : collectLoop cfg reads clock f (initState buf) with
    | raised e => rw [hc] at h; cases h
    | ok p =>
      rw [hc] at h
      cases p with
      | mk st₀ r₀ =>
        dsimp only at h
        simp only [PyResult.ok.injEq, Prod.mk.injEq] at h
        rw [← h.1, ← h.2.1]

/-- Witness for C10: the snapshot-equals-buffer conjunct applied to a concrete
one-read run on a collector whose buffer already holds one earlier sample. -/
theorem collector_buffer_is_append_only_across_runs_witness :
    ([[("seq", JVal.num 7)]] : List Record) =
      (⟨[[("seq", JVal.num 7)]], 0, 1, 1, [0]⟩ : LoopState).buffer :=
  collector_buffer_is_append_only_across_runs.2 ⟨none, none⟩ (fun _ => ⟨"", 1⟩)
    (fun _ => "T") 1 [[("seq", JVal.num 7)]] [[("seq", JVal.num 7)]]
    ⟨[[("seq", JVal.num 7)]], 0, 1, 1, [0]⟩ .fuelOut (by with_unfolding_all rfl)

lemma sampCheck_fires (N c : Nat) (hN : 1 ≤ N) (h : N ≤ c) :
    sampCheck (some (N : Int)) c = true := by
  simp only [sampCheck, Bool.and_eq_true, decide_eq_true_eq, ne_eq, ge_iff_le]
  constructor
  · intro hc
    omega
  · exact_mod_cast h

lemma sampCheck_not_fires (N c : Nat) (h : c < N) :
    sampCheck (some (N : Int)) c = false := by
  simp only [sampCheck, Bool.and_eq_false_iff]
  right
  simp only [ge_iff_le, decide_eq_false_iff_not, not_le]
  exact_mod_cast h

lemma decodesSample_ne_empty {line : String} (h : decodesSample line = true) :
    line ≠ "" := by
  intro he; subst he
  exact absurd h (by decide)

lemma decodesSample_parse {line : String} (h : decodesSample line = true) (now : String) :
    ∃ rec, parse_json_line now line = .ok ⟨some rec, []⟩ := by
  unfold decodesSample at h
  rw [Bool.and_eq_true] at h
  obtain ⟨h1, h2⟩ := h
  have hne : pyStrip line ≠ "" := by simpa using h1
  cases hj : json_loads (pyStrip line) with
  | error e => rw [hj] at h2; simp at h2
  | ok v =>
    rw [hj] at h2
    cases v with
    | obj kvs =>
      exact ⟨dictSet kvs "timestamp" (JVal.str now), by simp [parse_json_line, hne, hj]⟩
    | null => simp at h2
    | bool b => simp at h2
    | num n => simp at h2
    | fnum q => simp at h2
    | nan => simp at h2
    | inf b => simp at h2
    | str s => simp at h2
    | arr xs => simp at h2

lemma sample_limit_run (N : Nat) (hN : 1 ≤ N) (reads : Nat → ReadEvent)
    (clock : Nat → String) (hgood : ∀ i, decodesSample (reads i).line = true) :
    ∀ f st, st.sample_count ≤ N → N + 1 - st.sample_count ≤ f →
      ∃ st', collectLoop ⟨none, some (N : Int)⟩ reads clock f st = .ok (st', .sampleLimit) ∧
        st'.sample_count = N ∧
        st'.buffer.length = st.buffer.length + (N - st.sample_count) := by
  intro f
  induction f with
  | zero => intro st hle hf; omega
  | succ f ih =>
    intro st hle hf
    by_cases hc : N ≤ st.sample_count
    · have hceq : st.sample_count = N := le_antisymm hle hc
      refine ⟨st, ?_, hceq, by omega⟩
      unfold collectLoop
      simp [durCheck, sampCheck_fires N st.sample_count hN hc]
    · have hnf := sampCheck_not_fires N st.sample_count (by omega)
      have hline := hgood st.idx
      have hne := decodesSample_ne_empty hline
      obtain ⟨rec, hp⟩ := decodesSample_parse hline (clock st.idx)
      obtain ⟨st', hrun, hcnt, hbuf⟩ := ih
        ⟨st.buffer ++ [rec], st.sample_count + 1, st.elapsed + (reads st.idx).dt,
          st.idx + 1, st.starts ++ [st.elapsed]⟩
        (by simpa using by omega) (by simpa using by omega)
      refine ⟨st', ?_, hcnt, ?_⟩
      · unfold collectLoop
        simp only [durCheck, hnf, Bool.false_eq_true, if_false]
        rw [if_neg hne, hp]
        exact hrun
      · simp only [List.length_append, List.length_cons, List.length_nil] at hbuf
        omega

lemma sample_limit_never_exceeded (N : Nat) (hN : 1 ≤ N) (d : Option ℚ)
    (reads : Nat → ReadEvent) (clock : Nat → String) :
    ∀ f st, st.sample_count ≤ N →
      ∀ st' r, collectLoop ⟨d, some (N : Int)⟩ reads clock f st = .ok (st', r) →
        st'.sample_count ≤ N ∧
        st'.buffer.length ≤ st.buffer.length + (N - st.sample_count) := by
  intro f
  induction f with
  | zero =>
    intro st hle st' r hr
    unfold collectLoop at hr
    simp only [PyResult.ok.injEq, Prod.mk.injEq] at hr
    rw [← hr.1]
    exact ⟨hle, by omega⟩
  | succ f ih =>
    intro st hle st' r hr
    unfold collectLoop at hr
    by_cases hd : durCheck d st.elapsed
    · simp only [hd, if_true, PyResult.ok.injEq, Prod.mk.injEq] at hr
      rw [← hr.1]
      exact ⟨hle, by omega⟩
    · by_cases hs : sampCheck (some (N : Int)) st.sample_count
      · simp only [hd, hs, Bool.false_eq_true, if_false, if_true,
          PyResult.ok.injEq, Prod.mk.injEq] at hr
        rw [← hr.1]
        exact ⟨hle, by omega⟩
      · have hc : st.sample_count < N := by
          by_contra hcc
          exact hs (sampCheck_fires N st.sample_count hN (by omega))
        simp only [hd, hs, Bool.false_eq_true, if_false] at hr
        by_cases hl : (reads st.idx).line = ""
        · rw [if_pos hl] at hr
          have h' := ih _ (by simpa using hle) _ _ hr
          simpa using h'
        · rw [if_neg hl] at hr
          cases hp : parse_json_line (clock st.idx) (reads st.idx).line with
          | raised e => rw [hp] at hr; cases hr
          | ok dcd =>
            rw [hp] at hr
            cases dcd with
            | mk s ds =>
              cases s with
              | none =>
                dsimp only at hr
                have h' := ih _ (by simpa using hle) _ _ hr
                simpa using h'
              | some rec =>
                dsimp only at hr
                have h' := ih _ (by simpa using by omega) _ _ hr
                simp only [List.length_append, List.length_cons, List.length_nil] at h'
                exact ⟨h'.1, by omega⟩

/-- C2 (amended): for every positive `maxSamples = N` and every unbounded
source all of whose lines decode to samples, the collection run terminates
(any step budget of at least `N + 1` reads completes with the sample-limit
reason, because the sample-count predicate is evaluated before each read),
the fresh session buffer then contains exactly `N` samples, and no run ever
returns more than `N` samples.  (For `N = 0` the claim fails: the truthiness
test skips the check entirely; see the counterexample.) -/
theorem sample_limit_collects_exactly_N :
    ∀ N : Nat, 1 ≤ N →
      ∀ (reads : Nat → ReadEvent) (clock : Nat → String),
        (∀ i, decodesSample (reads i).line = true) →
        (∀ f, N + 1 ≤ f →
          ∃ st', collect_data ⟨none, some (N : Int)⟩ reads clock f [] =
              .ok (st'.buffer, st', .sampleLimit) ∧
            st'.buffer.length = N ∧ st'.sample_count = N) ∧
        (∀ f ret st' r,
          collect_data ⟨none, some (N : Int)⟩ reads clock f [] = .ok (ret, st', r) →
          ret.length ≤ N) := by
  intro N hN reads clock hgood
  constructor
  · intro f hf
    obtain ⟨st', hrun, hcnt, hbuf⟩ := sample_limit_run N hN reads clock hgood f
      (initState []) (by simp [initState]) (by simp [initState]; omega)
    refine ⟨st', ?_, by simpa [initState] using hbuf, hcnt⟩
    unfold collect_data
    rw [hrun]
  · intro f ret st' r h
    unfold collect_data at h
    cases hc : collectLoop ⟨none, some (N : Int)⟩ reads clock f (initState []) with
    | raised e => rw [hc] at h; cases h
    | ok p =>
      rw [hc] at h
      cases p with
      | mk st₀ r₀ =>
        dsimp only at h
        simp only [PyResult.ok.injEq, Prod.mk.injEq] at h
        have hb := (sample_limit_never_exceeded N hN none reads clock f (initState [])
          (by simp [initState]) st₀ r₀ hc).2
        rw [← h.1]
        simpa [initState] using hb

/-- Witness for C2: the no-more-than-`N` conjunct applied to a concrete
four-step run with `maxSamples = 2` over an always-ready source, which stops
at the sample limit having collected exactly two samples. -/
theorem sample_limit_collects_exactly_N_witness :
    ([[("seq", JVal.num 1), ("timestamp", JVal.str "T")],
      [("seq", JVal.num 1), ("timestamp", JVal.str "T")]] : List Record).length ≤ 2 := by
  have hgood : ∀ i : Nat,
      decodesSample ((fun _ => (⟨"\x7b\"seq\": 1\x7d", 1⟩ : ReadEvent)) i).line = true := by
    intro i
    show decodesSample "\x7b\"seq\": 1\x7d" = true
    decide
  exact (sample_limit_collects_exactly_N 2 (by decide)
      (fun _ => ⟨"\x7b\"seq\": 1\x7d", 1⟩) (fun _ => "T") hgood).2 4
    [[("seq", JVal.num 1), ("timestamp", JVal.str "T")],
     [("seq", JVal.num 1), ("timestamp", JVal.str "T")]]
    ⟨[[("seq", JVal.num 1), ("timestamp", JVal.str "T")],
      [("seq", JVal.num 1), ("timestamp", JVal.str "T")]], 2, 2, 2, [0, 1]⟩
    .sampleLimit (by with_unfolding_all rfl)

/-- Counterexample to C2 as stated: with `maxSamples = 0` and an unbounded
always-ready source, the run does not terminate (here: it exhausts a step
budget of 3 with the `fuelOut` reason) and the buffer holds 3 samples, more
than `N = 0` — the truthiness test `if max_samples and ...` skips the
termination check entirely for the configured value 0. -/
theorem max_samples_zero_run_does_not_terminate :
    collect_data ⟨none, some 0⟩ (fun _ => ⟨"\x7b\"seq\": 1\x7d", 1⟩) (fun _ => "T") 3 [] =
      .ok ([[("seq", JVal.num 1), ("timestamp", JVal.str "T")],
            [("seq", JVal.num 1), ("timestamp", JVal.str "T")],
            [("seq", JVal.num 1), ("timestamp", JVal.str "T")]],
           ⟨[[("seq", JVal.num 1), ("timestamp", JVal.str "T")],
             [("seq", JVal.num 1), ("timestamp", JVal.str "T")],
             [("seq", JVal.num 1), ("timestamp", JVal.str "T")]], 3, 3, 3, [0, 1, 2]⟩,
           .fuelOut) := by
  with_unfolding_all rfl

lemma durCheck_some_lt {D e : ℚ} (hD : 0 < D) (h : durCheck (some D) e = false) :
    e < D := by
  simp only [durCheck, Bool.and_eq_false_iff, decide_eq_false_iff_not, ne_eq,
    not_not, ge_iff_le, not_le] at h
  cases h with
  | inl h0 => exact absurd h0 (ne_of_gt hD)
  | inr hlt => exact hlt

lemma durCheck_some_ge {D e : ℚ} (h : durCheck (some D) e = true) : D ≤ e := by
  simp only [durCheck, Bool.and_eq_true, decide_eq_true_eq, ge_iff_le] at h
  exact h.2

lemma duration_invariant (D τ : ℚ) (hD : 0 < D) (reads : Nat → ReadEvent)
    (clock : Nat → String) (hdt : ∀ i, 0 ≤ (reads i).dt ∧ (reads i).dt ≤ τ) :
    ∀ f st, st.elapsed < D + τ → (∀ s ∈ st.starts, s < D) →
      ∀ st' r, collectLoop ⟨some D, none⟩ reads clock f st = .ok (st', r) →
        (∀ s ∈ st'.starts, s < D) ∧ st'.elapsed < D + τ ∧
          (r = .durationLimit → D ≤ st'.elapsed) := by
  intro f
  induction f with
  | zero =>
    intro st hel hst st' r hr
    unfold collectLoop at hr
    simp only [PyResult.ok.injEq, Prod.mk.injEq] at hr
    rw [← hr.1, ← hr.2]
    exact ⟨hst, hel, fun hc => by cases hc⟩
  | succ f ih =>
    intro st hel hst st' r hr
    unfold collectLoop at hr
    by_cases hdc : durCheck (some D) st.elapsed
    · simp only [hdc, if_true, PyResult.ok.injEq, Prod.mk.injEq] at hr
      rw [← hr.1, ← hr.2]
      exact ⟨hst, hel, fun _ => durCheck_some_ge hdc⟩
    · have hlt : st.elapsed < D := durCheck_some_lt hD (Bool.eq_false_iff.mpr hdc)
      simp only [hdc, Bool.false_eq_true, if_false, sampCheck] at hr
      have hel₂ : st.elapsed + (reads st.idx).dt < D + τ :=
        add_lt_add_of_lt_of_le hlt (hdt st.idx).2
      have hst₂ : ∀ s ∈ st.starts ++ [st.elapsed], s < D := by
        intro s hs
        rcases List.mem_append.mp hs with hs | hs
        · exact hst s hs
        · rw [List.mem_singleton.mp hs]; exact hlt
      by_cases hl : (reads st.idx).line = ""
      · rw [if_pos hl] at hr
        exact ih _ hel₂ hst₂ _ _ hr
      · rw [if_neg hl] at hr
        cases hp : parse_json_line (clock st.idx) (reads st.idx).line with
        | raised e => rw [hp] at hr; cases hr
        | ok dcd =>
          rw [hp] at hr
          cases dcd with
          | mk s ds =>
            cases s with
            | none =>
              dsimp only at hr
              exact ih _ hel₂ hst₂ _ _ hr
            | some rec =>
              dsimp only at hr
              exact ih _ hel₂ hst₂ _ _ hr

lemma duration_limit_termination (D δ : ℚ) (hD : 0 < D) (_hδ : 0 < δ)
    (reads : Nat → ReadEvent) (clock : Nat → String)
    (hdt : ∀ i, δ ≤ (reads i).dt)
    (hnr : ∀ i, decodeRaisesB (reads i).line = false) :
    ∀ (f : Nat) (st : LoopState), D ≤ st.elapsed + δ * (f : ℚ) →
      ∃ st', collectLoop ⟨some D, none⟩ reads clock (f + 1) st =
        .ok (st', .durationLimit) := by
  intro f
  induction f with
  | zero =>
    intro st hf
    refine ⟨st, ?_⟩
    unfold collectLoop
    have hge : D ≤ st.elapsed := by
      simpa using hf
    have hdc : durCheck (some D) st.elapsed = true := by
      simp [durCheck, ne_of_gt hD, hge]
    rw [hdc]
    rfl
  | succ f ih =>
    intro st hf
    by_cases hdc : durCheck (some D) st.elapsed
    · exact ⟨st, by unfold collectLoop; rw [hdc]; rfl⟩
    · have hstep : ∀ st₂ : LoopState, st₂.elapsed = st.elapsed + (reads st.idx).dt →
          D ≤ st₂.elapsed + δ * f := by
        intro st₂ he
        rw [he]
        have h1 : δ ≤ (reads st.idx).dt := hdt st.idx
        have h2 : D ≤ st.elapsed + δ * (f + 1 : ℕ) := hf
        push_cast at h2
        linarith
      unfold collectLoop
      simp only [hdc, Bool.false_eq_true, if_false, sampCheck]
      by_cases hl : (reads st.idx).line = ""
      · rw [if_pos hl]
        exact ih _ (hstep _ rfl)
      · rw [if_neg hl]
        obtain ⟨d, hp⟩ := parse_json_line_total (clock st.idx) (reads st.idx).line
          (hnr st.idx)
        rw [hp]
        cases d with
        | mk s ds =>
          cases s with
          | none => exact ih _ (hstep _ rfl)
          | some rec => exact ih _ (hstep _ rfl)

/-- C6 (amended): for every configured `maxDuration = D > 0`, the termination
predicates are evaluated before each blocking read, so no read is ever
started at an elapsed time ≥ D; consequently, when a run stops at the
duration limit its total time is ≥ D and (reads taking between 0 and one
read-timeout interval τ) always < D + τ; and on a source whose reads each
take at least δ > 0 and never raise, the run does terminate at the duration
limit once the step budget covers D/δ reads.  (For `D = 0` the claim fails —
the truthiness test skips the check; see the counterexample.) -/
theorem duration_checked_before_each_read :
    ∀ D τ : ℚ, 0 < D →
      ∀ (reads : Nat → ReadEvent) (clock : Nat → String),
        (∀ i, 0 ≤ (reads i).dt ∧ (reads i).dt ≤ τ) →
        (∀ f st' r, collectLoop ⟨some D, none⟩ reads clock f (initState []) = .ok (st', r) →
          (∀ s ∈ st'.starts, s < D) ∧ st'.elapsed < D + τ ∧
            (r = .durationLimit → D ≤ st'.elapsed)) ∧
        (∀ δ : ℚ, 0 < δ → (∀ i, δ ≤ (reads i).dt) →
          (∀ i, decodeRaisesB (reads i).line = false) →
          ∀ f : Nat, D ≤ δ * f →
            ∃ st', collectLoop ⟨some D, none⟩ reads clock (f + 1) (initState []) =
              .ok (st', .durationLimit)) := by
  intro D τ hD reads clock hdt
  constructor
  · intro f st' r hr
    apply duration_invariant D τ hD reads clock hdt f (initState [])
    · show (0 : ℚ) < D + τ
      have h1 := (hdt 0).1
      have h2 := (hdt 0).2
      linarith
    · intro s hs
      simp [initState] at hs
    · exact hr
  · intro δ hδ hdtl hnr f hf
    apply duration_limit_termination D δ hD hδ reads clock hdtl hnr f (initState [])
    show D ≤ (0 : ℚ) + δ * f
    linarith

/-- Witness for C6: the bounds conjunct applied to a concrete run with
`D = 2` and timeout `τ = 1` over an always-timing-out source, which stops at
the duration limit with total time 2 (so `D ≤ 2 < D + τ`). -/
theorem duration_checked_before_each_read_witness :
    ((2 : ℚ) ≤ (⟨[], 0, 2, 2, [0, 1]⟩ : LoopState).elapsed) ∧
    ((⟨[], 0, 2, 2, [0, 1]⟩ : LoopState).elapsed < 2 + 1) := by
  have hdt : ∀ i : Nat, (0 : ℚ) ≤ ((fun _ => (⟨"", 1⟩ : ReadEvent)) i).dt ∧
      ((fun _ => (⟨"", 1⟩ : ReadEvent)) i).dt ≤ 1 := by
    intro i
    show (0 : ℚ) ≤ 1 ∧ (1 : ℚ) ≤ 1
    norm_num
  have h := (duration_checked_before_each_read 2 1 (by norm_num) (fun _ => ⟨"", 1⟩)
      (fun _ => "T") hdt).1 3 ⟨[], 0, 2, 2, [0, 1]⟩ .durationLimit
      (by with_unfolding_all rfl)
  exact ⟨h.2.2 rfl, h.2.1⟩

/-- Counterexample to C6 as stated: with `maxDuration = 0` reads ARE started
once elapsed ≥ D — the run below starts reads at elapsed times 0 and 1, both
≥ 0, and ends by fuel exhaustion, because `if duration and ...` skips the
duration check for the configured value 0. -/
theorem duration_zero_reads_start_after_limit :
    collectLoop ⟨some 0, none⟩ (fun _ => ⟨"", 1⟩) (fun _ => "T") 2 (initState []) =
      .ok (⟨[], 0, 2, 2, [0, 1]⟩, .fuelOut) ∧
    (0 : ℚ) ∈ ([0, 1] : List ℚ) ∧ (0 : ℚ) ≤ 0 :=
  ⟨by with_unfolding_all rfl, List.mem_cons_self 0 [1], le_refl 0⟩
